import Mathlib

/-!
Verification of the LUMO resume-parsing and skill-matching core

Shallow embedding of `src/dashboard/views.py` (functions
`get_recommended_internships`, `internship_detail`'s matching block,
`parse_resume_with_pdfplumber`, `extract_contact_info`, `extract_summary`,
`extract_experience`, `extract_education`, `extract_skills`,
`extract_projects`, and the skill get-or-create loop of
`upload_resume_api_view`) together with proofs about the claims of the
natural-language specification.

Strings are modelled with Lean `String`; Python's `str.lower`, `str.upper`,
`str.title`, `str.strip`, `str.split`, substring tests and `str.startswith`
are embedded character-wise (faithful on the ASCII inputs the claims are
about: Lean's `Char.toLower`/`Char.toUpper` only map the basic latin
letters, as CPython does on ASCII text).  Percentages are embedded as `ℚ`
and Python's `round(x, 1)` as round-half-to-even on exact rationals, which
is what CPython's float rounding computes on the decimal values arising
here.  All definitions are structurally recursive so concrete inputs
evaluate by `decide`/`rfl`.
-/

/-! Section: Python string primitives -/

/-- Python `str.lower()`: character-wise lowercasing (`A`-`Z` only, as for
the ASCII data all claims are about). -/
def pyLower (s : String) : String := ⟨s.data.map Char.toLower⟩

/-- Characters Python's default `str.strip()` removes. -/
def isPySpace (c : Char) : Bool :=
  c == ' ' || c == '\t' || c == '\n' || c == '\r' || c == '\x0b' || c == '\x0c'

/-- Python `str.strip()` with no argument: trims whitespace at both ends. -/
def pyStrip (s : String) : String :=
  ⟨(s.data.dropWhile isPySpace).reverse.dropWhile isPySpace |>.reverse⟩

/-- Python's `str.title()` over a character list: the first cased character
of every run of letters is uppercased, the following ones lowercased. -/
def pyTitleAux : Bool → List Char → List Char
  | _, [] => []
  | prev, c :: cs =>
    if c.isAlpha then (if prev then c.toLower else c.toUpper) :: pyTitleAux true cs
    else c :: pyTitleAux false cs

/-- Python `str.title()`. -/
def pyTitle (s : String) : String := ⟨pyTitleAux false s.data⟩

/-- Boolean substring test on character lists (Python's `needle in hay`). -/
def isSubstrB : List Char → List Char → Bool
  | n, h =>
    n.isPrefixOf h ||
      (match h with
       | [] => false
       | _ :: t => isSubstrB n t)

/-- Python `needle in hay` on strings. -/
def pyContains (hay needle : String) : Bool := isSubstrB needle.data hay.data

/-- Python `s.startswith(p)`. -/
def pyStartsWith (s p : String) : Bool := p.data.isPrefixOf s.data

/-- Python `s.startswith((p₁, …, pₙ))`. -/
def pyStartsWithAny (s : String) (ps : List String) : Bool :=
  ps.any (pyStartsWith s)

/-- Split a character list at every occurrence of characters satisfying
`sep`, keeping empty pieces (Python `str.split(c)` for one-character
separators). -/
def splitCharAux (sep : Char → Bool) : List Char → List (List Char)
  | [] => [[]]
  | c :: cs =>
    let r := splitCharAux sep cs
    if sep c then [] :: r
    else
      match r with
      | [] => [[c]]
      | h :: t => (c :: h) :: t

/-- Python `s.split(c)` for a single separator character. -/
def pySplitChar (s : String) (sep : Char) : List String :=
  (splitCharAux (· == sep) s.data).map String.mk

/-- Python `s.split()`: split on whitespace runs, dropping empty pieces. -/
def pyWords (s : String) : List String :=
  ((splitCharAux isPySpace s.data).map String.mk).filter (· ≠ "")

/-- Python `sep.join(l)` (used with `sep = " "`). -/
def joinSpace : List String → String
  | [] => ""
  | [s] => s
  | s :: rest => s ++ " " ++ joinSpace rest

/-- Python `str.replace(old, new)` for one-character `old`/`new`. -/
def pyReplaceChar (s : String) (old new : Char) : String :=
  ⟨s.data.map fun c => if c == old then new else c⟩

/-! Section: rounding

Python's `round(x, 1)` on the (exactly representable) decimal values that
arise in this program rounds half to even.  We embed it on `ℚ`. -/

/-- Round a rational to the nearest integer, halves to the even neighbour
(CPython's rounding mode for `round`). -/
def roundHalfEven (q : ℚ) : ℤ :=
  let f := ⌊q⌋
  if q - f < 1/2 then f
  else if (1/2 : ℚ) < q - f then f + 1
  else if f % 2 = 0 then f else f + 1

/-- Python `round(x, 1)`. -/
def roundTo1 (q : ℚ) : ℚ := (roundHalfEven (10 * q) : ℚ) / 10

/-! Section: match scorer (`get_recommended_internships`, lines 39-75, and the
matching block of `internship_detail`, lines 528-543) -/

/-- One skill-against-skill test of the scorer: case-insensitive equality
or substring containment either way (lines 58-60 / 535-537). -/
def skillMatchB (req student : String) : Bool :=
  pyLower req == pyLower student ||
    pyContains (pyLower student) (pyLower req) ||
    pyContains (pyLower req) (pyLower student)

/-- The inner double loop of lines 55-62 (and 530-539): for each required
skill, append it to `matching_skills` as soon as some student skill
matches, `break`ing at the first such student skill. -/
def matchingSkills (required studentSkills : List String) : List String :=
  required.filter fun r => studentSkills.any fun s => skillMatchB r s

/-- An internship as far as the scorer sees it: an identity and its
required-skill names. -/
structure Internship where
  id : Nat
  required_skills : List String
deriving DecidableEq

/-- One element of the list `get_recommended_internships` returns
(the dict of lines 67-71). -/
structure RecEntry where
  internship : Internship
  matching_skills : List String
  match_percentage : ℚ
deriving DecidableEq

/-- The comparison `list.sort(key=lambda x: x['match_percentage'],
reverse=True)` sorts with: stable, descending by percentage. -/
def recLE (a b : RecEntry) : Bool := decide (b.match_percentage ≤ a.match_percentage)

/-- The body of the `for internship in Internship.objects.all()` loop
(lines 49-71), producing the unsorted `recommended` list. -/
def recommendedEntries (studentSkills : List String) (catalog : List Internship) :
    List RecEntry :=
  catalog.foldl
    (fun acc internship =>
      let required := internship.required_skills
      if required.isEmpty then acc
      else
        let matching := matchingSkills required studentSkills
        if matching.isEmpty then acc
        else
          let pct : ℚ := ((matching.length : ℚ) / (required.length : ℚ)) * 100
          if 25 ≤ pct then
            acc ++ [⟨internship, matching, roundTo1 pct⟩]
          else acc)
    []

/-- `get_recommended_internships` (lines 39-75): empty-skill early return,
per-internship scoring, and the final stable descending sort. -/
def get_recommended_internships (studentSkills : List String)
    (catalog : List Internship) : List RecEntry :=
  if studentSkills.isEmpty then []
  else (recommendedEntries studentSkills catalog).mergeSort recLE

/-- The matching block of `internship_detail` (lines 528-543): the same
double loop, plus a percentage that the view computes even when nothing
matches (0 when the internship has no required skills). -/
def internshipDetailMatch (studentSkills : List String) (internship : Internship) :
    List String × ℚ :=
  let matching := matchingSkills internship.required_skills studentSkills
  let pct : ℚ :=
    if internship.required_skills.isEmpty then 0
    else ((matching.length : ℚ) / (internship.required_skills.length : ℚ)) * 100
  (matching, roundTo1 pct)

/-! Section: a tiny backtracking matcher for the three `re` patterns the
source uses (`re.search` with character classes, fixed/optional/unbounded
repetition and word boundaries).  `re.search` semantics: try every start
position left to right; at each position quantifiers are greedy with
backtracking; the returned group is the matched substring. -/

/-- Python's `\w` on the ASCII text the claims are about. -/
def wordCharB (c : Char) : Bool := c.isAlphanum || c == '_'

/-- Python's `\b`: a word/non-word transition at position `pos` (positions
outside the string count as non-word). -/
def boundaryAt (s : List Char) (pos : Nat) : Bool :=
  (if pos = 0 then false else wordCharB (s.getD (pos - 1) ' ')) !=
    wordCharB (s.getD pos ' ')

/-- One regex atom: a character class with repetition bounds
(`none` = unbounded, Python `+`/`{2,}`), or a word boundary `\b`. -/
inductive RAtom where
  | cls : (Char → Bool) → Nat → Option Nat → RAtom
  | bnd : RAtom

/-- Match a sequence of atoms at position `pos`, returning the end position
of the match.  Repetitions are tried longest first (greedy with
backtracking), as Python's `re` does. -/
def matchAtoms (s : List Char) : List RAtom → Nat → Option Nat
  | [], pos => some pos
  | .bnd :: rest, pos => if boundaryAt s pos then matchAtoms s rest pos else none
  | .cls p lo hi :: rest, pos =>
    let avail := s.length - pos
    let hiK := match hi with | some h => min h avail | none => avail
    ((List.range (hiK + 1)).reverse.filter (lo ≤ ·)).findSome? fun k =>
      if ((s.drop pos).take k).all p then matchAtoms s rest (pos + k) else none

/-- Python `re.search(pattern, s)`, returning `m.group()`: the leftmost
(then greedy) match. -/
def reSearch (atoms : List RAtom) (s : String) : Option String :=
  let cs := s.data
  (List.range (cs.length + 1)).findSome? fun st =>
    (matchAtoms cs atoms st).map fun e => String.mk ((cs.drop st).take (e - st))

/-- The class `[A-Za-z0-9._%+-]` of the email regex (line 121). -/
def isLocalChar (c : Char) : Bool :=
  c.isAlphanum || c == '.' || c == '_' || c == '%' || c == '+' || c == '-'

/-- The class `[A-Za-z0-9.-]` of the email regex. -/
def isDomChar (c : Char) : Bool := c.isAlphanum || c == '.' || c == '-'

/-- The class `[A-Z|a-z]` of the email regex (the source's class literally
contains `|`). -/
def isTldChar (c : Char) : Bool := c.isAlpha || c == '|'

/-- `\b[A-Za-z0-9._%+-]+@[A-Za-z0-9.-]+\.[A-Z|a-z]{2,}\b` (line 121). -/
def emailAtoms : List RAtom :=
  [.bnd, .cls isLocalChar 1 none, .cls (· == '@') 1 (some 1),
   .cls isDomChar 1 none, .cls (· == '.') 1 (some 1), .cls isTldChar 2 none, .bnd]

/-- The class `[-\s]` of the phone regexes. -/
def sepChar (c : Char) : Bool := c == '-' || isPySpace c

/-- `\+?1?[-\s]?\(?\d{3}\)?[-\s]?\d{3}[-\s]?\d{4}` (line 133). -/
def phoneAtoms1 : List RAtom :=
  [.cls (· == '+') 0 (some 1), .cls (· == '1') 0 (some 1), .cls sepChar 0 (some 1),
   .cls (· == '(') 0 (some 1), .cls Char.isDigit 3 (some 3), .cls (· == ')') 0 (some 1),
   .cls sepChar 0 (some 1), .cls Char.isDigit 3 (some 3), .cls sepChar 0 (some 1),
   .cls Char.isDigit 4 (some 4)]

/-- `\(?\d{3}\)?[-\s]?\d{3}[-\s]?\d{4}` (line 134). -/
def phoneAtoms2 : List RAtom :=
  [.cls (· == '(') 0 (some 1), .cls Char.isDigit 3 (some 3), .cls (· == ')') 0 (some 1),
   .cls sepChar 0 (some 1), .cls Char.isDigit 3 (some 3), .cls sepChar 0 (some 1),
   .cls Char.isDigit 4 (some 4)]

/-- `\d{3}[-\s]?\d{3}[-\s]?\d{4}` (line 135). -/
def phoneAtoms3 : List RAtom :=
  [.cls Char.isDigit 3 (some 3), .cls sepChar 0 (some 1),
   .cls Char.isDigit 3 (some 3), .cls sepChar 0 (some 1), .cls Char.isDigit 4 (some 4)]

/-! Section: contact locator (`extract_contact_info`, lines 110-154) -/

/-- The `contact_info` dict of line 112. -/
structure Contact where
  name : String
  email : String
  phone : String
  linkedin : String
deriving DecidableEq

/-- Line 146's skip keywords for name detection. -/
def nameSkipKeywords : List String :=
  ["resume", "cv", "curriculum", "vitae", "email", "phone", "address", "linkedin"]

/-- The body of the `for i, line in enumerate(lines[:15])` loop of
`extract_contact_info`: the email/linkedin/phone `elif` chain followed by
the independent name check. -/
def contactStep (i : Nat) (st : Contact) (line : String) : Contact :=
  let lineLower := pyStrip (pyLower line)
  let lineClean := pyStrip line
  let st1 :=
    if pyContains lineClean "@" && pyContains lineClean "." && st.email == "" then
      match reSearch emailAtoms lineClean with
      | some m => { st with email := m }
      | none => st
    else if pyContains lineLower "linkedin" && st.linkedin == "" then
      { st with linkedin := lineClean }
    else if st.phone == "" then
      match [phoneAtoms1, phoneAtoms2, phoneAtoms3].findSome?
          (fun pat => reSearch pat lineClean) with
      | some m => { st with phone := m }
      | none => st
    else st
  if st1.name == "" && decide (i < 5) &&
      decide ((pyWords lineClean).length ≤ 4) &&
      !(nameSkipKeywords.any fun kw => pyContains lineLower kw) &&
      !(lineClean.data.any Char.isDigit) &&
      !(pyContains lineClean "@") &&
      decide (3 < lineClean.length) then
    { st1 with name := lineClean }
  else st1

/-- `extract_contact_info` (lines 110-154). -/
def extract_contact_info (lines : List String) : Contact :=
  (lines.take 15).enum.foldl (fun st p => contactStep p.1 st p.2) ⟨"", "", "", ""⟩

/-! Section: summary locator (`extract_summary`, lines 156-163) -/

/-- Line 158's keywords. -/
def summaryKeywords : List String := ["summary", "objective", "profile", "about"]

/-- `extract_summary`: first keyword line, then the next three lines joined
by single spaces. -/
def extract_summary (lines : List String) : String :=
  match lines.findIdx? (fun line => summaryKeywords.any fun kw =>
      pyContains (pyLower line) kw) with
  | some i => joinSpace ((lines.drop (i + 1)).take 3)
  | none => ""

/-! Section: experience locator (`extract_experience`, lines 165-219) -/

/-- One entry of the `experience` list (line 193). -/
structure ExpEntry where
  title : String
  company : String
  description : String
deriving DecidableEq

/-- Line 168's heading keywords. -/
def expKeywords : List String :=
  ["experience", "work", "employment", "career", "professional", "internship"]

/-- Line 184's section stoppers. -/
def expStopSections : List String := ["education", "skills", "projects", "certifications"]

/-- Line 189's job-title words. -/
def expTitleWords : List String := ["intern", "developer", "engineer", "analyst", "manager"]

/-- Lines 207-211: append a description line (space-joined). -/
def expDescAppend (cur : ExpEntry) (c : String) : ExpEntry :=
  if cur.description == "" then { cur with description := c }
  else { cur with description := cur.description ++ " " ++ c }

/-- The `while j < len(lines) and j < i + 15` loop of lines 177-213 plus the
final flush of lines 215-216.  `stop = min (len lines) (i+15)`; the fuel
argument only bounds the recursion (the loop advances `j` by at least one
each iteration, so `stop - j` fuel is enough; running out of fuel and
leaving the loop produce the same flush). -/
def expWindow (lines : List String) (stop : Nat) :
    Nat → Nat → Option ExpEntry → List ExpEntry → List ExpEntry
  | 0, _, cur, acc => acc ++ cur.toList
  | fuel + 1, j, cur, acc =>
    if j < stop then
      let c := pyStrip (lines.getD j "")
      if c == "" then expWindow lines stop fuel (j + 1) cur acc
      else if expStopSections.any (fun sec => pyContains (pyLower c) sec) then
        acc ++ cur.toList
      else if decide (c.length < 100) &&
          (c.data.any Char.isDigit ||
            expTitleWords.any fun w => pyContains (pyLower c) w) then
        let acc' := acc ++ cur.toList
        let next := pyStrip (lines.getD (j + 1) "")
        if decide (j + 1 < lines.length) && next != "" &&
            decide (next.length < 80) && !(pyStartsWith next "•") then
          expWindow lines stop fuel (j + 2) (some ⟨c, next, ""⟩) acc'
        else
          expWindow lines stop fuel (j + 1) (some ⟨c, "", ""⟩) acc'
      else
        match cur with
        | some ce =>
          if pyStartsWith c "•" || pyStartsWith c "-" || decide (50 < c.length) then
            expWindow lines stop fuel (j + 1) (some (expDescAppend ce c)) acc
          else expWindow lines stop fuel (j + 1) cur acc
        | none => expWindow lines stop fuel (j + 1) cur acc
    else acc ++ cur.toList

/-- `extract_experience` (lines 165-219): first heading line under 50
characters containing an experience keyword, then the bounded window, then
`experience[:5]`. -/
def extract_experience (lines : List String) : List ExpEntry :=
  match lines.findIdx? (fun line =>
      (expKeywords.any fun kw => pyContains (pyStrip (pyLower line)) kw) &&
        decide ((pyStrip line).length < 50)) with
  | some i =>
    let stop := min lines.length (i + 15)
    (expWindow lines stop (stop - (i + 1)) (i + 1) none []).take 5
  | none => []

/-! Section: education locator (`extract_education`, lines 221-274) -/

/-- One entry of the `education` list (line 249). -/
structure EduEntry where
  degree : String
  institution : String
  dates : String
deriving DecidableEq

/-- Line 224's heading keywords. -/
def eduKeywords : List String :=
  ["education", "degree", "university", "college", "school", "academic"]

/-- Line 240's section stoppers. -/
def eduStopSections : List String := ["experience", "skills", "projects"]

/-- Line 245's degree words. -/
def degreeWords : List String :=
  ["bachelor", "master", "phd", "degree", "university", "college"]

/-- `re.search(r'\d{4}', s)` succeeds iff four consecutive digits occur. -/
def has4DigitRun : List Char → Bool
  | a :: b :: c :: d :: rest =>
    (a.isDigit && b.isDigit && c.isDigit && d.isDigit) ||
      has4DigitRun (b :: c :: d :: rest)
  | _ => false

/-- The `while j < len(lines) and j < i + 10` loop of lines 233-268 plus the
final flush (fuel as in `expWindow`). -/
def eduWindow (lines : List String) (stop : Nat) :
    Nat → Nat → Option EduEntry → List EduEntry → List EduEntry
  | 0, _, cur, acc => acc ++ cur.toList
  | fuel + 1, j, cur, acc =>
    if j < stop then
      let c := pyStrip (lines.getD j "")
      if c == "" then eduWindow lines stop fuel (j + 1) cur acc
      else if eduStopSections.any (fun sec => pyContains (pyLower c) sec) then
        acc ++ cur.toList
      else if decide (c.length < 100) then
        if degreeWords.any (fun w => pyContains (pyLower c) w) then
          let acc' := acc ++ cur.toList
          let next := pyStrip (lines.getD (j + 1) "")
          if decide (j + 1 < lines.length) && next != "" && decide (next.length < 80) then
            eduWindow lines stop fuel (j + 2) (some ⟨c, next, ""⟩) acc'
          else
            eduWindow lines stop fuel (j + 1) (some ⟨c, "", ""⟩) acc'
        else
          match cur with
          | some ce =>
            if c.data.any Char.isDigit && has4DigitRun c.data then
              eduWindow lines stop fuel (j + 1) (some { ce with dates := c }) acc
            else eduWindow lines stop fuel (j + 1) cur acc
          | none => eduWindow lines stop fuel (j + 1) cur acc
      else eduWindow lines stop fuel (j + 1) cur acc
    else acc ++ cur.toList

/-- `extract_education` (lines 221-274): first heading line under 50
characters containing an education keyword, window of 10, then
`education[:3]`. -/
def extract_education (lines : List String) : List EduEntry :=
  match lines.findIdx? (fun line =>
      (eduKeywords.any fun kw => pyContains (pyStrip (pyLower line)) kw) &&
        decide ((pyStrip line).length < 50)) with
  | some i =>
    let stop := min lines.length (i + 10)
    (eduWindow lines stop (stop - (i + 1)) (i + 1) none []).take 3
  | none => []

/-! Section: skills locator (`extract_skills`, lines 276-327) -/

/-- Line 279's section keywords. -/
def skillSectionKeywords : List String :=
  ["skills", "technologies", "tools", "programming", "technical", "software", "languages"]

/-- The `common_skills` vocabulary of lines 282-289 (a Python set literal;
we fix its source order — every claim proved below is independent of the
iteration order of this collection). -/
def commonSkills : List String :=
  ["python", "java", "javascript", "react", "angular", "vue", "node.js", "django",
   "flask", "html", "css", "sql", "mongodb", "postgresql", "mysql", "git", "docker",
   "kubernetes", "aws", "azure", "gcp", "machine learning", "data analysis", "pandas",
   "numpy", "tensorflow", "pytorch", "scikit-learn", "r", "matlab", "c++", "c#",
   "php", "ruby", "go", "rust", "swift", "kotlin", "flutter", "react native",
   "bootstrap", "tailwind", "sass", "less", "webpack", "babel", "typescript",
   "graphql", "rest api", "microservices", "agile", "scrum"]

/-- Line 299's delimiters, each replaced by `|` before splitting. -/
def skillDelims : List Char := [',', '•', '·', '|', ';', '/', '\n', '\t']

/-- Lines 298-309: normalise delimiters, split, strip, keep tokens whose
lower-cased length is strictly between 1 and 30. -/
def skillsFromLine (lineText : String) : List String :=
  let replaced := skillDelims.foldl (fun t d => pyReplaceChar t d '|') lineText
  let tokens := ((pySplitChar replaced '|').map pyStrip).filter (· ≠ "")
  tokens.foldl
    (fun acc sk =>
      let clean := pyStrip (pyLower sk)
      if decide (1 < clean.length) && decide (clean.length < 30) then acc ++ [pyStrip sk]
      else acc)
    []

/-- Lines 292-316: pass 1 (every keyword line contributes the first
non-skipped line of its window — the outer `for` has no `break`) followed
by pass 2 (whole-document scan for the common vocabulary). -/
def rawSkills (lines : List String) : List String :=
  let pass1 := lines.enum.foldl
    (fun acc p =>
      if skillSectionKeywords.any (fun kw => pyContains (pyStrip (pyLower p.2)) kw) then
        match (List.range' (p.1 + 1) (min (p.1 + 8) lines.length - (p.1 + 1))).findSome?
            (fun j =>
              let lj := lines.getD j ""
              if lj != "" &&
                  !(pyStartsWithAny (pyLower lj) ["experience", "education", "projects"]) then
                some lj
              else none) with
        | some lj => acc ++ skillsFromLine lj
        | none => acc
      else acc)
    []
  let fullText := pyLower (joinSpace lines)
  commonSkills.foldl
    (fun acc sk =>
      if pyContains fullText sk && !(acc.contains (pyTitle sk)) then acc ++ [pyTitle sk]
      else acc)
    pass1

/-- Lines 318-325: title-case, drop length-1 tokens, deduplicate
case-insensitively keeping the first occurrence (`seen` is the set of
lower-cased kept names). -/
def cleanSkills : List String → List String → List String
  | _, [] => []
  | seen, sk :: rest =>
    let sc := pyTitle (pyStrip sk)
    if sc != "" && !(seen.contains (pyLower sc)) && decide (1 < sc.length) then
      sc :: cleanSkills (seen ++ [pyLower sc]) rest
    else cleanSkills seen rest

/-- `extract_skills` (lines 276-327). -/
def extract_skills (lines : List String) : List String :=
  (cleanSkills [] (rawSkills lines)).take 20

/-! Section: projects locator (`extract_projects`, lines 329-344) -/

/-- One entry of the `projects` list (line 338). -/
structure Project where
  title : String
  description : String
deriving DecidableEq

/-- Line 332's keywords. -/
def projKeywords : List String := ["projects", "portfolio", "work"]

/-- The inner `for j in range(i+1, min(i+8, len(lines)))` loop of lines
336-342: the first non-skipped line becomes one project and the loop
`break`s. -/
def projectFromWindow (lines : List String) (i : Nat) : Option Project :=
  (List.range' (i + 1) (min (i + 8) lines.length - (i + 1))).findSome? fun j =>
    let lj := lines.getD j ""
    if lj != "" && !(pyStartsWithAny (pyLower lj) ["experience", "education", "skills"]) then
      some ⟨lj,
        if decide (j + 1 < lines.length) then joinSpace ((lines.drop (j + 1)).take 2)
        else ""⟩
    else none

/-- `extract_projects` (lines 329-344).  The outer `for i, line` loop has
no `break`, so every keyword line contributes (at most) one project. -/
def extract_projects (lines : List String) : List Project :=
  lines.enum.foldl
    (fun acc p =>
      if projKeywords.any (fun kw => pyContains (pyLower p.2) kw) then
        acc ++ (projectFromWindow lines p.1).toList
      else acc)
    []

/-! Section: resume structurer (`parse_resume_with_pdfplumber`, lines
81-108).  The pdfplumber interaction is abstracted: a document is `none`
when `pdfplumber.open`/text extraction raises (the `except` path returning
`None`), or `some pages` where each page's `extract_text()` result is an
`Option String` (`None` is replaced by `""` at line 89). -/

/-- The text accumulation of lines 87-89. -/
def pdfText (pages : List (Option String)) : String :=
  pages.foldl (fun t p => t ++ p.getD "") ""

/-- The structured record of lines 95-103. -/
structure ParsedResume where
  contact_info : Contact
  summary : String
  experience : List ExpEntry
  education : List EduEntry
  skills : List String
  projects : List Project
  raw_text : String
deriving DecidableEq

/-- `parse_resume_with_pdfplumber` (lines 81-108): `none` exactly on the
exception path; otherwise the record is always built (line 92 keeps the
stripped non-empty lines). -/
def parse_resume_with_pdfplumber (doc : Option (List (Option String))) :
    Option ParsedResume :=
  match doc with
  | none => none
  | some pages =>
    let text := pdfText pages
    let lines := ((pySplitChar text '\n').map pyStrip).filter (· ≠ "")
    some
      { contact_info := extract_contact_info lines
        summary := extract_summary lines
        experience := extract_experience lines
        education := extract_education lines
        skills := extract_skills lines
        projects := extract_projects lines
        raw_text := text }

/-! Section: skill normalizer (the get-or-create loop of
`upload_resume_api_view`, lines 392-399) -/

/-- Modelled from the spec: the canonical `Skill` vocabulary lives in
`accounts.models.Skill`, which is not under `src/`; per the spec it is a
case-insensitive-unique name store with an atomic get-or-create keyed on
the case-insensitive name.  We model it as the list of canonical names in
creation order.  `Skill.objects.get_or_create(name__iexact=key,
defaults={'name': key.title()})`: return the vocabulary unchanged when a
case-insensitive match for `key` exists, otherwise append the title-cased
name. -/
def skillGetOrCreate (vocab : List String) (key : String) : List String :=
  if vocab.any (fun v => pyLower v == pyLower key) then vocab
  else vocab ++ [pyTitle key]

/-- The `for skill_name in parsed_data['skills']` loop of lines 393-399
(the `student.skills.add` side is not modelled; only the vocabulary). -/
def normalizeSkills (vocab : List String) (names : List String) : List String :=
  names.foldl
    (fun v n =>
      if n != "" && decide (1 < (pyStrip n).length) then skillGetOrCreate v (pyStrip n)
      else v)
    vocab

/-! Section: derived forms used by the proofs -/

/-- The per-internship body of the recommendation loop in `Option` form:
`some entry` exactly when lines 49-71 append an entry for this internship. -/
def recOption (studentSkills : List String) (internship : Internship) :
    Option RecEntry :=
  let required := internship.required_skills
  if required.isEmpty then none
  else
    let matching := matchingSkills required studentSkills
    if matching.isEmpty then none
    else
      let pct : ℚ := ((matching.length : ℚ) / (required.length : ℚ)) * 100
      if 25 ≤ pct then some ⟨internship, matching, roundTo1 pct⟩ else none

/-- The raw (unrounded) percentage the code compares against the threshold
at line 66: `(len(matching_skills) / required_skills.count()) * 100`. -/
def matchPercentageRaw (studentSkills : List String) (internship : Internship) : ℚ :=
  (((matchingSkills internship.required_skills studentSkills).length : ℚ) /
      (internship.required_skills.length : ℚ)) * 100

/-- The spec's `match_percentage`: `100 * |matching| / |R|` rounded to one
decimal place (the value the spec's recommendation threshold refers to). -/
def matchPercentageRounded (studentSkills : List String) (internship : Internship) : ℚ :=
  roundTo1 (100 * ((matchingSkills internship.required_skills studentSkills).length : ℚ) /
    (internship.required_skills.length : ℚ))

/-- Restructured form of the projects locator: one optional project per
keyword-containing line, in line order. -/
def projectsBySection (lines : List String) : List Project :=
  lines.enum.filterMap fun p =>
    if projKeywords.any (fun kw => pyContains (pyLower p.2) kw) then
      projectFromWindow lines p.1
    else none

/-! Section: concrete input exhibiting the rounded-versus-raw threshold gap
(126 of 505 required skills match, a raw 24.95…% that rounds to 25.0%) -/

/-- Three decimal digits of `k` (`k < 1000`), most significant first. -/
def digit3 (k : Nat) : List Char :=
  [Char.ofNat (48 + k / 100 % 10), Char.ofNat (48 + k / 10 % 10), Char.ofNat (48 + k % 10)]

/-- 505 pairwise case-insensitively distinct skill names: 126 containing
the letter `a` (matched by a student knowing `"a"`) and 379 without it. -/
def gapRequired : List String :=
  (List.range 126).map (fun k => String.mk ('a' :: digit3 k)) ++
    (List.range 379).map (fun k => String.mk ('b' :: digit3 k))

/-- The internship with the 505 required skills above. -/
def gapInternship : Internship := ⟨0, gapRequired⟩

/-! Section: helper lemmas about the string primitives -/

theorem isSubstrB_iff {n h : List Char} : isSubstrB n h = true ↔ n <:+: h := by
  induction h with
  | nil =>
    rw [isSubstrB]
    simp [List.isPrefixOf_iff_prefix]
  | cons c t ih =>
    rw [isSubstrB]
    simp [List.isPrefixOf_iff_prefix, ih, List.infix_cons_iff]

theorem pyContains_iff {hay needle : String} :
    pyContains hay needle = true ↔ needle.data <:+: hay.data := by
  simp [pyContains, isSubstrB_iff]

theorem charCaseUpper : ∀ m, m < 123 →
    ((Char.ofNat m).toUpper.toLower = (Char.ofNat m).toLower) := by decide

theorem charCaseLower : ∀ m, m < 123 →
    ((Char.ofNat m).toLower.toLower = (Char.ofNat m).toLower) := by decide

theorem toLower_toUpper_eq (c : Char) : c.toUpper.toLower = c.toLower := by
  by_cases h : c.toNat < 123
  · have := charCaseUpper c.toNat h
    rwa [Char.ofNat_toNat] at this
  · have hu : c.toUpper = c := by
      simp only [Char.toUpper]
      rw [if_neg (by omega)]
    rw [hu]

theorem toLower_idem (c : Char) : c.toLower.toLower = c.toLower := by
  by_cases h : c.toNat < 123
  · have := charCaseLower c.toNat h
    rwa [Char.ofNat_toNat] at this
  · have hl : c.toLower = c := by
      simp only [Char.toLower]
      rw [if_neg (by omega)]
    rw [hl, hl]

theorem pyTitleAux_map_toLower :
    ∀ (b : Bool) (l : List Char),
      (pyTitleAux b l).map Char.toLower = l.map Char.toLower := by
  intro b l
  induction l generalizing b with
  | nil => rfl
  | cons c cs ih =>
    rw [pyTitleAux]
    by_cases hc : c.isAlpha
    · cases b <;> simp [hc, ih, toLower_idem, toLower_toUpper_eq]
    · simp [hc, ih]

theorem pyLower_pyTitle (s : String) : pyLower (pyTitle s) = pyLower s := by
  simp only [pyLower, pyTitle, pyTitleAux_map_toLower]

/-! Section: generic fold/filterMap helper -/

theorem foldl_append_toList_eq_filterMap {α β : Type} (f : α → Option β) :
    ∀ (l : List α) (acc : List β),
      l.foldl (fun a x => a ++ (f x).toList) acc = acc ++ l.filterMap f := by
  intro l
  induction l with
  | nil => simp
  | cons x xs ih =>
    intro acc
    rw [List.foldl_cons, ih]
    cases h : f x <;> simp [h, List.filterMap_cons]

/-! Section: helper lemmas about the scorer -/

theorem recommendedEntries_eq (S : List String) (catalog : List Internship) :
    recommendedEntries S catalog = catalog.filterMap (recOption S) := by
  have hext : recommendedEntries S catalog =
      catalog.foldl (fun acc i => acc ++ (recOption S i).toList) [] := by
    rw [recommendedEntries]
    apply List.foldl_ext
    intro acc i _
    simp only [recOption]
    split_ifs <;> simp
  rw [hext, foldl_append_toList_eq_filterMap, List.nil_append]

theorem recOption_internship {S : List String} {i : Internship} {e : RecEntry}
    (h : recOption S i = some e) : e.internship = i := by
  simp only [recOption] at h
  split_ifs at h
  cases h
  rfl

theorem matchingSkills_nil_student (R : List String) : matchingSkills R [] = [] := by
  simp [matchingSkills]

theorem recOption_isSome_iff (S : List String) (i : Internship) :
    (recOption S i).isSome = true ↔
      i.required_skills ≠ [] ∧ 25 ≤ matchPercentageRaw S i := by
  simp only [recOption, matchPercentageRaw]
  split_ifs with h1 h2 h3
  · simp only [List.isEmpty_iff] at h1
    simp [h1]
  · simp only [List.isEmpty_iff] at h2
    simp only [h2, List.length_nil, Nat.cast_zero, Option.isSome_none]
    norm_num
  · simp only [List.isEmpty_iff] at h1
    simp [h1, h3]
  · simp only [List.isEmpty_iff] at h1
    simp [h1, h3]

theorem recLE_trans (a b c : RecEntry) :
    recLE a b = true → recLE b c = true → recLE a c = true := by
  simp only [recLE, decide_eq_true_eq]
  intro h1 h2
  exact le_trans h2 h1

theorem recLE_total (a b : RecEntry) : (recLE a b || recLE b a) = true := by
  simp only [recLE, Bool.or_eq_true, decide_eq_true_eq]
  exact le_total b.match_percentage a.match_percentage

theorem filter_mergeSort_pct (entries : List RecEntry) (p : ℚ) :
    (entries.mergeSort recLE).filter (fun e => decide (e.match_percentage = p)) =
      entries.filter (fun e => decide (e.match_percentage = p)) := by
  set pr : RecEntry → Bool := fun e => decide (e.match_percentage = p) with hpr
  have hmem : ∀ x ∈ entries.filter pr, x.match_percentage = p := by
    intro x hx
    have := (List.mem_filter.mp hx).2
    simpa [hpr] using this
  have hpair : (entries.filter pr).Pairwise (fun a b => recLE a b = true) := by
    apply List.pairwise_of_forall_mem_list
    intro a ha b hb
    simp only [recLE, decide_eq_true_eq, hmem a ha, hmem b hb]
    exact le_refl p
  have hsub : (entries.filter pr).Sublist (entries.mergeSort recLE) :=
    List.sublist_mergeSort recLE_trans recLE_total hpair (List.filter_sublist entries)
  have hsub2 : (entries.filter pr).Sublist ((entries.mergeSort recLE).filter pr) := by
    have := hsub.filter pr
    rwa [List.filter_filter, show (fun a => pr a && pr a) = pr from funext fun a => by
      cases pr a <;> rfl] at this
  have hperm : ((entries.mergeSort recLE).filter pr).length = (entries.filter pr).length :=
    ((List.mergeSort_perm entries recLE).filter pr).length_eq
  exact (hsub2.eq_of_length hperm.symm).symm

theorem filterMap_map_internship_sublist (S : List String) :
    ∀ catalog : List Internship,
      ((catalog.filterMap (recOption S)).map (·.internship)).Sublist catalog := by
  intro catalog
  induction catalog with
  | nil => simp
  | cons i rest ih =>
    cases h : recOption S i with
    | none => simpa [List.filterMap_cons, h] using ih.cons i
    | some e =>
      rw [List.filterMap_cons, h]
      simpa [recOption_internship h] using ih.cons₂ i

/-! Section: helper lemmas about the skills cleanup -/

theorem cleanSkills_not_mem_seen :
    ∀ (rest seen : List String) (x : String),
      x ∈ cleanSkills seen rest → pyLower x ∉ seen := by
  intro rest
  induction rest with
  | nil =>
    intro seen x hx
    simp [cleanSkills] at hx
  | cons sk rest ih =>
    intro seen x hx
    rw [cleanSkills] at hx
    split_ifs at hx with hc
    · rcases List.mem_cons.mp hx with hx | hx
      · subst hx
        intro hmem
        have hcontains := (Bool.and_eq_true _ _).mp ((Bool.and_eq_true _ _).mp hc).1
        have : (List.contains seen (pyLower (pyTitle (pyStrip sk))) = false) := by
          simpa using hcontains.2
        simp only [List.contains, List.elem_eq_mem, decide_eq_false_iff_not] at this
        exact this hmem
      · intro hmem
        exact ih _ x hx (List.mem_append_left _ hmem)
    · exact ih _ x hx

theorem cleanSkills_pairwise :
    ∀ (rest seen : List String),
      (cleanSkills seen rest).Pairwise (fun a b => pyLower a ≠ pyLower b) := by
  intro rest
  induction rest with
  | nil => intro seen; simp [cleanSkills]
  | cons sk rest ih =>
    intro seen
    rw [cleanSkills]
    split_ifs with hc
    · refine List.Pairwise.cons ?_ (ih _)
      intro y hy
      have := cleanSkills_not_mem_seen rest _ y hy
      simp only [List.mem_append, List.mem_singleton, not_or] at this
      exact fun hEq => this.2 hEq.symm
    · exact ih _

theorem cleanSkills_sublist :
    ∀ (rest seen : List String),
      (cleanSkills seen rest).Sublist (rest.map fun s => pyTitle (pyStrip s)) := by
  intro rest
  induction rest with
  | nil => intro seen; simp [cleanSkills]
  | cons sk rest ih =>
    intro seen
    rw [cleanSkills, List.map_cons]
    split_ifs with hc
    · exact (ih _).cons₂ _
    · exact (ih _).cons _

/-! Section: helper lemmas about the skill normalizer -/

theorem normalizeSkills_cons (vocab : List String) (n : String) (ns : List String) :
    normalizeSkills vocab (n :: ns) =
      normalizeSkills
        (if n != "" && decide (1 < (pyStrip n).length) then
          skillGetOrCreate vocab (pyStrip n)
        else vocab) ns := rfl

theorem skillGetOrCreate_pairwise {vocab : List String} {key : String}
    (h : vocab.Pairwise (fun a b => pyLower a ≠ pyLower b)) :
    (skillGetOrCreate vocab key).Pairwise (fun a b => pyLower a ≠ pyLower b) := by
  rw [skillGetOrCreate]
  split_ifs with hf
  · exact h
  · rw [List.pairwise_append]
    refine ⟨h, by simp, ?_⟩
    intro a ha b hb
    simp only [List.mem_singleton] at hb
    subst hb
    rw [pyLower_pyTitle]
    simp only [List.any_eq_true, beq_iff_eq] at hf
    intro hEq
    exact hf ⟨a, ha, hEq⟩

theorem exists_lower_mem_skillGetOrCreate (vocab : List String) (key : String) :
    ∃ v ∈ skillGetOrCreate vocab key, pyLower v = pyLower key := by
  rw [skillGetOrCreate]
  split_ifs with hf
  · simp only [List.any_eq_true, beq_iff_eq] at hf
    exact hf
  · exact ⟨pyTitle key, by simp, pyLower_pyTitle key⟩

theorem mem_skillGetOrCreate_of_mem {vocab : List String} {v : String} (key : String)
    (h : v ∈ vocab) : v ∈ skillGetOrCreate vocab key := by
  rw [skillGetOrCreate]
  split_ifs
  · exact h
  · exact List.mem_append_left _ h

theorem mem_normalizeSkills_of_mem (names : List String) :
    ∀ (vocab : List String) (v : String), v ∈ vocab → v ∈ normalizeSkills vocab names := by
  induction names with
  | nil => intro vocab v h; exact h
  | cons n ns ih =>
    intro vocab v h
    rw [normalizeSkills_cons]
    apply ih
    split_ifs
    · exact mem_skillGetOrCreate_of_mem _ h
    · exact h

theorem normalizeSkills_processed (names : List String) :
    ∀ (vocab : List String) (n : String), n ∈ names →
      (n != "" && decide (1 < (pyStrip n).length)) = true →
      ∃ v ∈ normalizeSkills vocab names, pyLower v = pyLower (pyStrip n) := by
  induction names with
  | nil => intro vocab n h; exact absurd h (List.not_mem_nil n)
  | cons m ns ih =>
    intro vocab n hmem hcond
    rcases List.mem_cons.mp hmem with hEq | hmem'
    · subst hEq
      rw [normalizeSkills_cons, if_pos hcond]
      obtain ⟨v, hv, hlow⟩ := exists_lower_mem_skillGetOrCreate vocab (pyStrip n)
      exact ⟨v, mem_normalizeSkills_of_mem ns _ v hv, hlow⟩
    · rw [normalizeSkills_cons]
      exact ih _ n hmem' hcond

theorem normalizeSkills_pairwise (names : List String) :
    ∀ vocab : List String, vocab.Pairwise (fun a b => pyLower a ≠ pyLower b) →
      (normalizeSkills vocab names).Pairwise (fun a b => pyLower a ≠ pyLower b) := by
  induction names with
  | nil => intro vocab h; exact h
  | cons n ns ih =>
    intro vocab h
    rw [normalizeSkills_cons]
    apply ih
    split_ifs
    · exact skillGetOrCreate_pairwise h
    · exact h

theorem normalizeSkills_fixed (names : List String) :
    ∀ vocab : List String,
      (∀ n ∈ names, (n != "" && decide (1 < (pyStrip n).length)) = true →
        ∃ v ∈ vocab, pyLower v = pyLower (pyStrip n)) →
      normalizeSkills vocab names = vocab := by
  induction names with
  | nil => intro vocab _; rfl
  | cons m ns ih =>
    intro vocab hinv
    rw [normalizeSkills_cons]
    have hstep : (if m != "" && decide (1 < (pyStrip m).length) then
        skillGetOrCreate vocab (pyStrip m) else vocab) = vocab := by
      split_ifs with hc
      · rw [skillGetOrCreate, if_pos]
        simp only [List.any_eq_true, beq_iff_eq]
        exact hinv m (List.mem_cons_self m ns) hc
      · rfl
    rw [hstep]
    exact ih vocab fun n hn hc => hinv n (List.mem_cons_of_mem m hn) hc

theorem normalizeSkills_idem (names vocab : List String) :
    normalizeSkills (normalizeSkills vocab names) names = normalizeSkills vocab names :=
  normalizeSkills_fixed names _ fun n hn hc => normalizeSkills_processed names vocab n hn hc

/-! Section: the claims -/

/-- C1: for every student skill set `S` and required set `R`, the matching
list computed by the match scorer consists exactly of those `r ∈ R` such
that some `s ∈ S` is case-insensitively equal to `r` or one lower-cased
name is a substring of the other; each `r` is added at most once; and
`S = ["Python"]` against a requirement `"Python Programming"` counts that
requirement as matched. -/
theorem spec_C1 (S R : List String) :
    (∀ r, r ∈ matchingSkills R S ↔
      r ∈ R ∧ ∃ s ∈ S,
        pyLower r = pyLower s ∨ (pyLower r).data <:+: (pyLower s).data ∨
          (pyLower s).data <:+: (pyLower r).data)
  ∧ (matchingSkills R S).Sublist R
  ∧ "Python Programming" ∈ matchingSkills ["Python Programming"] ["Python"] := by
  refine ⟨?_, List.filter_sublist R, by decide⟩
  intro r
  simp only [matchingSkills, List.mem_filter, List.any_eq_true, skillMatchB,
    Bool.or_eq_true, beq_iff_eq, pyContains_iff, or_assoc]

/-- C5: the extracted skills list has at most 20 entries, no two of them
equal case-insensitively, in first-seen order (a sublist of the collected
title-cased tokens); experience is capped at 5 and education at 3. -/
theorem spec_C5 (lines : List String) :
    (extract_skills lines).length ≤ 20
  ∧ (extract_skills lines).Pairwise (fun a b => pyLower a ≠ pyLower b)
  ∧ (extract_skills lines).Sublist ((rawSkills lines).map fun s => pyTitle (pyStrip s))
  ∧ (extract_experience lines).length ≤ 5
  ∧ (extract_education lines).length ≤ 3 := by
  refine ⟨?_, ?_, ?_, ?_, ?_⟩
  · rw [extract_skills, List.length_take]
    exact min_le_left _ _
  · exact List.Pairwise.sublist (List.take_sublist _ _) (cleanSkills_pairwise _ [])
  · exact (List.take_sublist _ _).trans (cleanSkills_sublist _ [])
  · rw [extract_experience]
    split
    · rw [List.length_take]
      exact min_le_left _ _
    · simp
  · rw [extract_education]
    split
    · rw [List.length_take]
      exact min_le_left _ _
    · simp

/-- C6 counterexample: a line sequence with two keyword lines
(`"Projects"` and `"Work"`) makes `extract_projects` emit two projects,
refuting "emits at most one project / stops after the first section". -/
theorem spec_C6_counterexample :
    ¬ (extract_projects ["Projects", "A", "B", "Work", "C"]).length ≤ 1 := by decide

/-- C6 amended: the projects locator emits at most one project per
keyword-containing line — for every line containing one of
{projects, portfolio, work} it scans the following window, skipping lines
starting with experience/education/skills, and emits one project (title =
first qualifying line, description = next two lines space-joined); the
sections are processed independently, so several keyword lines yield
several projects. -/
theorem spec_C6_amended (lines : List String) :
    extract_projects lines = projectsBySection lines := by
  rw [extract_projects, projectsBySection]
  have hext : lines.enum.foldl
      (fun acc p =>
        if projKeywords.any (fun kw => pyContains (pyLower p.2) kw) then
          acc ++ (projectFromWindow lines p.1).toList
        else acc) [] =
    lines.enum.foldl
      (fun acc p =>
        acc ++ ((fun q : Nat × String =>
          if projKeywords.any (fun kw => pyContains (pyLower q.2) kw) then
            projectFromWindow lines q.1
          else none) p).toList) [] := by
    apply List.foldl_ext
    intro acc p _
    by_cases hk : (projKeywords.any fun kw => pyContains (pyLower p.2) kw) = true <;>
      simp [hk]
  rw [hext, foldl_append_toList_eq_filterMap, List.nil_append]

/-- C8: on the scenario input (a `"Skills"` heading followed by the section
line `"Python, SQL | Docker"`) the skills extractor returns exactly
`["Python", "Sql", "Docker"]`: title-cased, input order, deduplicated
case-insensitively, nothing else (the whole-document vocabulary scan's
extra finds `"Sql"` and `"R"` are removed by the case-insensitive
deduplication and the length-1 filter respectively). -/
theorem spec_C8 :
    extract_skills ["Skills", "Python, SQL | Docker"] = ["Python", "Sql", "Docker"] := by
  decide

/-- C9: re-running the skill normalizer (atomic case-insensitive
get-or-create against the canonical vocabulary) on the same name list
leaves no two vocabulary entries case-insensitively equal, and the second
run creates nothing new (resolution is idempotent per name). -/
theorem spec_C9 (names vocab : List String)
    (h : vocab.Pairwise (fun a b => pyLower a ≠ pyLower b)) :
    (normalizeSkills vocab names).Pairwise (fun a b => pyLower a ≠ pyLower b)
  ∧ normalizeSkills (normalizeSkills vocab names) names = normalizeSkills vocab names :=
  ⟨normalizeSkills_pairwise names vocab h, normalizeSkills_idem names vocab⟩

/-- C9 witness: the theorem applied to the concrete run
`["python", "PYTHON", " sql "]` over an empty vocabulary. -/
theorem spec_C9_witness :
    (normalizeSkills [] ["python", "PYTHON", " sql "]).Pairwise
        (fun a b => pyLower a ≠ pyLower b)
  ∧ normalizeSkills (normalizeSkills [] ["python", "PYTHON", " sql "])
        ["python", "PYTHON", " sql "] =
      normalizeSkills [] ["python", "PYTHON", " sql "] :=
  spec_C9 ["python", "PYTHON", " sql "] [] List.Pairwise.nil

theorem recOption_nil_student (i : Internship) : recOption [] i = none := by
  simp [recOption, matchingSkills_nil_student]

/-- C4: the recommendation list is sorted descending by `match_percentage`
and the sort is stable: entries of equal percentage appear exactly as in
the unsorted per-catalog pass, which itself follows catalog iteration
order. -/
theorem spec_C4 (S : List String) (catalog : List Internship) :
    (get_recommended_internships S catalog).Pairwise
        (fun a b => b.match_percentage ≤ a.match_percentage)
  ∧ (∀ p : ℚ, (get_recommended_internships S catalog).filter
        (fun e => decide (e.match_percentage = p)) =
      (recommendedEntries S catalog).filter (fun e => decide (e.match_percentage = p)))
  ∧ ((recommendedEntries S catalog).map (fun e => e.internship)).Sublist catalog := by
  refine ⟨?_, ?_, ?_⟩
  · rw [get_recommended_internships]
    split_ifs with hS
    · simp
    · have h := List.sorted_mergeSort recLE_trans recLE_total (recommendedEntries S catalog)
      exact h.imp (by intro a b hab; simpa [recLE] using hab)
  · intro p
    rw [get_recommended_internships]
    split_ifs with hS
    · simp only [List.isEmpty_iff] at hS
      subst hS
      rw [recommendedEntries_eq]
      have hnil : List.filterMap (recOption []) catalog = [] :=
        List.filterMap_eq_nil_iff.mpr fun i _ => recOption_nil_student i
      simp [hnil]
    · exact filter_mergeSort_pct _ p
  · rw [recommendedEntries_eq]
    exact filterMap_map_internship_sublist S catalog

/-- C3 amended: an internship appears in the catalog-wide recommendation
output iff it is in the catalog, its required-skill set is non-empty, and
the RAW (unrounded) percentage `|matching| / |R| * 100` that the code
compares at line 66 is at least 25 (the spec's rounded value can reach 25.0
while the raw value is below 25, in which case the internship does not
appear). -/
theorem spec_C3_amended (S : List String) (catalog : List Internship) (i : Internship) :
    (∃ e ∈ get_recommended_internships S catalog, e.internship = i) ↔
      i ∈ catalog ∧ i.required_skills ≠ [] ∧ 25 ≤ matchPercentageRaw S i := by
  rw [get_recommended_internships]
  split_ifs with hS
  · simp only [List.isEmpty_iff] at hS
    subst hS
    constructor
    · rintro ⟨e, he, -⟩
      exact absurd he (List.not_mem_nil e)
    · rintro ⟨-, -, hpct⟩
      rw [matchPercentageRaw, matchingSkills_nil_student] at hpct
      norm_num at hpct
  · constructor
    · rintro ⟨e, he, hei⟩
      rw [List.mem_mergeSort, recommendedEntries_eq, List.mem_filterMap] at he
      obtain ⟨a, ha, hfa⟩ := he
      have hai : a = i := by rw [← (recOption_internship hfa), hei]
      subst hai
      refine ⟨ha, ?_⟩
      exact (recOption_isSome_iff S a).mp (by rw [hfa]; rfl)
    · rintro ⟨hmem, hR, hpct⟩
      have hsome : (recOption S i).isSome :=
        (recOption_isSome_iff S i).mpr ⟨hR, hpct⟩
      obtain ⟨e, he⟩ := Option.isSome_iff_exists.mp hsome
      refine ⟨e, ?_, recOption_internship he⟩
      rw [List.mem_mergeSort, recommendedEntries_eq, List.mem_filterMap]
      exact ⟨i, hmem, he⟩

set_option maxRecDepth 8000 in
theorem gap_matching_len : (matchingSkills gapRequired ["a"]).length = 126 := by decide

set_option maxRecDepth 8000 in
theorem gap_required_len : gapRequired.length = 505 := by decide

theorem gap_recOption_none : recOption ["a"] gapInternship = none := by
  simp only [recOption]
  rw [if_neg (by decide), if_neg (by decide), if_neg]
  intro hle
  rw [show gapInternship.required_skills = gapRequired from rfl, gap_matching_len,
    gap_required_len] at hle
  norm_num at hle

theorem gap_rounded_pct : 25 ≤ matchPercentageRounded ["a"] gapInternship := by
  rw [matchPercentageRounded, show gapInternship.required_skills = gapRequired from rfl,
    gap_matching_len, gap_required_len, roundTo1, roundHalfEven]
  have hq : (10 : ℚ) * (100 * ((126 : ℕ) : ℚ) / ((505 : ℕ) : ℚ)) = 25200 / 101 := by
    push_cast
    norm_num
  rw [hq]
  have hf : ⌊(25200 : ℚ) / 101⌋ = 249 := by norm_num
  rw [hf]
  rw [if_neg (by norm_num), if_pos (by norm_num)]
  norm_num

/-- C3 counterexample: with student skills `["a"]` and the single-internship
catalog `[gapInternship]` (126 of 505 required skills matching), the spec's
rounded `match_percentage` is 25.0, yet the internship does not appear in
the output because the code compares the raw 24.95…% against the
threshold. -/
theorem spec_C3_counterexample :
    ¬ (∀ (S : List String) (catalog : List Internship) (i : Internship),
        (∃ e ∈ get_recommended_internships S catalog, e.internship = i) ↔
          i ∈ catalog ∧ i.required_skills ≠ [] ∧ 25 ≤ matchPercentageRounded S i) := by
  intro h
  have h2 := (h ["a"] [gapInternship] gapInternship).mpr
    ⟨List.mem_cons_self _ _, by decide, gap_rounded_pct⟩
  obtain ⟨e, he, -⟩ := h2
  rw [get_recommended_internships, if_neg (by decide), recommendedEntries_eq] at he
  simp only [List.filterMap_cons, List.filterMap_nil, gap_recOption_none,
    List.mergeSort_nil] at he
  exact absurd he (List.not_mem_nil e)

theorem roundTo1_two_thirds : roundTo1 ((2 : ℚ) / 3 * 100) = 667 / 10 := by
  rw [roundTo1, roundHalfEven]
  have hq : (10 : ℚ) * ((2 : ℚ) / 3 * 100) = 2000 / 3 := by norm_num
  rw [hq]
  have hf : ⌊(2000 : ℚ) / 3⌋ = 666 := by norm_num
  rw [hf]
  rw [if_neg (by norm_num), if_pos (by norm_num)]
  norm_num

theorem rec_concrete :
    get_recommended_internships ["python", "sql"] [⟨0, ["Python", "SQL", "Django"]⟩] =
      [⟨⟨0, ["Python", "SQL", "Django"]⟩, ["Python", "SQL"], 667 / 10⟩] := by
  rw [get_recommended_internships, if_neg (by decide), recommendedEntries_eq]
  have hm : matchingSkills ["Python", "SQL", "Django"] ["python", "sql"] =
      ["Python", "SQL"] := by decide
  have hopt : recOption ["python", "sql"] ⟨0, ["Python", "SQL", "Django"]⟩ =
      some ⟨⟨0, ["Python", "SQL", "Django"]⟩, ["Python", "SQL"], 667 / 10⟩ := by
    simp only [recOption, hm]
    rw [if_neg (by decide), if_neg (by decide), if_pos (by norm_num)]
    have hp : ((["Python", "SQL"].length : ℚ) / (["Python", "SQL", "Django"].length : ℚ)) * 100 =
        (2 : ℚ) / 3 * 100 := by norm_num
    rw [hp, roundTo1_two_thirds]
  rw [List.filterMap_cons, hopt, List.filterMap_nil, List.mergeSort_singleton]

/-- C2: every percentage the recommender stores equals
`round1(100 * |matching| / |R|)` with `|R|` as the denominator (and the
stored matching list is the computed one); on the spec's scenarios,
`R = {Python, SQL, Django}`, `S = {python, sql}` gives matching
`{Python, SQL}` and 66.7, and `R = {Java}`, `S = {Python}` gives an empty
matching and percentage 0.0 (as computed by the detail view). -/
theorem spec_C2 :
    (∀ (S : List String) (catalog : List Internship) (e : RecEntry),
      e ∈ get_recommended_internships S catalog →
        e.match_percentage =
            roundTo1 (100 * ((matchingSkills e.internship.required_skills S).length : ℚ) /
              (e.internship.required_skills.length : ℚ)) ∧
          e.matching_skills = matchingSkills e.internship.required_skills S)
  ∧ matchingSkills ["Python", "SQL", "Django"] ["python", "sql"] = ["Python", "SQL"]
  ∧ get_recommended_internships ["python", "sql"] [⟨0, ["Python", "SQL", "Django"]⟩] =
      [⟨⟨0, ["Python", "SQL", "Django"]⟩, ["Python", "SQL"], 667 / 10⟩]
  ∧ matchingSkills ["Java"] ["Python"] = []
  ∧ (internshipDetailMatch ["Python"] ⟨1, ["Java"]⟩).2 = 0 := by
  refine ⟨?_, by decide, rec_concrete, by decide, ?_⟩
  · intro S catalog e he
    rw [get_recommended_internships] at he
    split_ifs at he with hS
    · exact absurd he (List.not_mem_nil e)
    · rw [List.mem_mergeSort, recommendedEntries_eq, List.mem_filterMap] at he
      obtain ⟨a, -, hfa⟩ := he
      simp only [recOption] at hfa
      split_ifs at hfa
      cases hfa
      constructor
      · simp only
        congr 1
        ring
      · rfl
  · have hm : matchingSkills ["Java"] ["Python"] = [] := by decide
    simp only [internshipDetailMatch, hm]
    rw [if_neg (by decide)]
    have hz : ((([] : List String).length : ℚ) / ((["Java"] : List String).length : ℚ)) * 100 =
        0 := by norm_num
    rw [hz, roundTo1, roundHalfEven]
    have hf : ⌊(10 : ℚ) * 0⌋ = 0 := by norm_num
    rw [hf]
    rw [if_pos (by norm_num)]
    norm_num

/-- C2 witness: the theorem's universal part applied to the concrete
scenario entry produced by `rec_concrete`. -/
theorem spec_C2_witness :
    (⟨⟨0, ["Python", "SQL", "Django"]⟩, ["Python", "SQL"], 667 / 10⟩ : RecEntry).match_percentage =
        roundTo1 (100 *
          ((matchingSkills
              (⟨0, ["Python", "SQL", "Django"]⟩ : Internship).required_skills
              ["python", "sql"]).length : ℚ) /
          ((⟨0, ["Python", "SQL", "Django"]⟩ : Internship).required_skills.length : ℚ)) ∧
      (⟨⟨0, ["Python", "SQL", "Django"]⟩, ["Python", "SQL"], 667 / 10⟩ : RecEntry).matching_skills =
        matchingSkills (⟨0, ["Python", "SQL", "Django"]⟩ : Internship).required_skills
          ["python", "sql"] :=
  spec_C2.1 ["python", "sql"] [⟨0, ["Python", "SQL", "Django"]⟩]
    ⟨⟨0, ["Python", "SQL", "Django"]⟩, ["Python", "SQL"], 667 / 10⟩
    (by rw [rec_concrete]; exact List.mem_cons_self _ _)

/-- C7 counterexample: a readable document with one page and no extractable
text (`some [none]`, giving empty raw text) is parsed into a structured
record, not the error result — refuting "fails exactly when the document
cannot be opened or contains no extractable text". -/
theorem spec_C7_counterexample :
    ¬ (∀ doc : Option (List (Option String)),
        parse_resume_with_pdfplumber doc = none ↔
          (doc = none ∨ ∃ pages, doc = some pages ∧ pdfText pages = "")) := by
  intro h
  have h2 := (h (some [none])).mpr (Or.inr ⟨[none], rfl, rfl⟩)
  simp [parse_resume_with_pdfplumber] at h2

/-- C7 amended: the resume-parsing entry point yields the error result
exactly when the document cannot be opened (the extraction step raises); a
readable PDF from which no text can be extracted produces a ParsedResume
with empty fields and empty raw text, not a parse failure. -/
theorem spec_C7_amended :
    (∀ doc : Option (List (Option String)),
      parse_resume_with_pdfplumber doc = none ↔ doc = none)
  ∧ parse_resume_with_pdfplumber (some [none]) =
      some ⟨⟨"", "", "", ""⟩, "", [], [], [], [], ""⟩ := by
  refine ⟨?_, by decide⟩
  intro doc
  cases doc with
  | none => simp [parse_resume_with_pdfplumber]
  | some pages => simp [parse_resume_with_pdfplumber]

/-- C10: a line among the first 15 containing both `@` and `.` while the
email field is still empty is consumed by the email branch alone — the
`elif` chain never lets it set `linkedin` or `phone`, even when the email
regex finds no match in it; concretely, on
`["contact @ x.y 555-123-4567"]` the returned phone is empty although a
phone-shaped digit run is present. -/
theorem spec_C10 :
    (∀ (st : Contact) (i : Nat) (line : String),
      pyContains (pyStrip line) "@" = true →
      pyContains (pyStrip line) "." = true →
      st.email = "" →
      (contactStep i st line).linkedin = st.linkedin ∧
        (contactStep i st line).phone = st.phone)
  ∧ (extract_contact_info ["contact @ x.y 555-123-4567"]).phone = "" := by
  refine ⟨?_, by decide⟩
  intro st i line h1 h2 h3
  simp only [contactStep]
  have hc : (pyContains (pyStrip line) "@" && pyContains (pyStrip line) "." &&
      st.email == "") = true := by
    rw [h1, h2, h3]
    simp
  rw [if_pos hc]
  cases hr : reSearch emailAtoms (pyStrip line) <;> simp only [hr] <;>
    split_ifs <;> simp

/-- C10 witness: the theorem's universal part applied at the empty state
and the concrete line `"contact @ x.y 555-123-4567"`. -/
theorem spec_C10_witness :
    (contactStep 0 ⟨"", "", "", ""⟩ "contact @ x.y 555-123-4567").linkedin =
        (⟨"", "", "", ""⟩ : Contact).linkedin ∧
      (contactStep 0 ⟨"", "", "", ""⟩ "contact @ x.y 555-123-4567").phone =
        (⟨"", "", "", ""⟩ : Contact).phone :=
  spec_C10.1 ⟨"", "", "", ""⟩ 0 "contact @ x.y 555-123-4567" (by decide) (by decide) rfl
